import Mathlib

/-!
Verification development for the hikari WebGL micro-framework
(rendering core: `PlaneGeometry`, `Material`, `Uniform`; effect layer:
`MorphGradient`, `BalatroGradient`).

Modelling conventions, used throughout:
* JavaScript `number` values are modelled as exact rationals (`ℚ`);
  `Float32Array` storage is idealized (no single-precision rounding).
* `Uint16Array` element storage is exact: every value written to the
  index buffer is reduced modulo `2 ^ 16 = 65536`, as the typed array does.
* Typed-array writes outside the array bounds are ignored, matching
  JavaScript typed-array semantics (`List.set` is a no-op out of range;
  negative computed indices are modelled explicitly).
* GPU side effects (`Attribute.update` buffer uploads, draw calls) and
  DOM interactions are not part of the modelled state.
* JavaScript `NaN` produced by failed numeric parsing is modelled as
  `none` in `Option ℚ`.
-/

namespace Hikari

/-- The three attribute arrays written by `PlaneGeometry.setTopology`:
`uv` and `uvNorm` back `Float32Array`s and `index` backs a `Uint16Array`. -/
structure TopoArrays where
  uv : List ℚ
  uvNorm : List ℚ
  index : List ℕ

/-- One iteration of the nested generation loops of
`PlaneGeometry.setTopology` at grid point `(x, y)` (y outer, x inner):
writes the UV pair at `2*vertexIndex`, the normalized-UV pair at the same
offsets, and, when the point is the top-left corner of an interior cell
(`x < xSegCount ∧ y < ySegCount`), the six index entries of the cell's two
triangles.  Index values are stored modulo `2 ^ 16` (`Uint16Array`). -/
def topoBody (xSeg ySeg y x : ℕ) (a : TopoArrays) : TopoArrays :=
  let vi := y * (xSeg + 1) + x
  let uv := (a.uv.set (2 * vi) ((x : ℚ) / (xSeg : ℚ))).set (2 * vi + 1)
    (1 - (y : ℚ) / (ySeg : ℚ))
  let uvNorm := (a.uvNorm.set (2 * vi) ((x : ℚ) / (xSeg : ℚ) * 2 - 1)).set (2 * vi + 1)
    (1 - (y : ℚ) / (ySeg : ℚ) * 2)
  let index :=
    if x < xSeg ∧ y < ySeg then
      let qi := y * xSeg + x
      ((((((a.index.set (6 * qi) (vi % 65536)).set
        (6 * qi + 1) ((vi + 1 + xSeg) % 65536)).set
        (6 * qi + 2) ((vi + 1) % 65536)).set
        (6 * qi + 3) ((vi + 1) % 65536)).set
        (6 * qi + 4) ((vi + 1 + xSeg) % 65536)).set
        (6 * qi + 5) ((vi + 2 + xSeg) % 65536))
    else a.index
  ⟨uv, uvNorm, index⟩

/-- The first `m` iterations (`x = 0, …, m-1`) of the inner loop of
`setTopology` at row `y`. -/
def innerPartial (xSeg ySeg y m : ℕ) (a : TopoArrays) : TopoArrays :=
  (List.range m).foldl (fun b x => topoBody xSeg ySeg y x b) a

/-- The full inner loop of `setTopology` at row `y` (`x = 0, …, xSegCount`). -/
def innerRow (xSeg ySeg y : ℕ) (a : TopoArrays) : TopoArrays :=
  innerPartial xSeg ySeg y (xSeg + 1) a

/-- The first `n` rows (`y = 0, …, n-1`) of the outer loop of `setTopology`. -/
def outerPartial (xSeg ySeg n : ℕ) (a : TopoArrays) : TopoArrays :=
  (List.range n).foldl (fun b y => innerRow xSeg ySeg y b) a

/-- The freshly allocated (zero-initialized) attribute arrays of
`setTopology`: `new Float32Array(2 * vertexCount)` twice and
`new Uint16Array(3 * quadCount)`. -/
def topoInit (xSeg ySeg : ℕ) : TopoArrays :=
  ⟨List.replicate (2 * ((xSeg + 1) * (ySeg + 1))) 0,
   List.replicate (2 * ((xSeg + 1) * (ySeg + 1))) 0,
   List.replicate (3 * (xSeg * ySeg * 2)) 0⟩

/-- The attribute arrays produced by `PlaneGeometry.setTopology` for the
given segment counts: fresh zeroed arrays run through the full
double loop (`y = 0, …, ySegCount`). -/
def topoArrays (xSeg ySeg : ℕ) : TopoArrays :=
  outerPartial xSeg ySeg (ySeg + 1) (topoInit xSeg ySeg)

/-- State of a `PlaneGeometry` instance.  The `position` array is
`Option`-valued because `Attribute.values` starts out undefined and is
first allocated by `setSize`. -/
structure PlaneGeometry where
  width : ℚ
  height : ℚ
  orientation : String
  xSegCount : ℕ
  ySegCount : ℕ
  vertexCount : ℕ
  quadCount : ℕ
  position : Option (List ℚ)
  uv : List ℚ
  uvNorm : List ℚ
  index : List ℕ

/-- `PlaneGeometry.setTopology(xSegments, ySegments)`: stores the segment
counts, recomputes `vertexCount = (xSegCount+1)*(ySegCount+1)` and
`quadCount = xSegCount*ySegCount*2`, reallocates and refills the UV,
normalized-UV and index arrays.  The position array is not touched. -/
def setTopology (g : PlaneGeometry) (xSegments ySegments : ℕ) : PlaneGeometry :=
  let a := topoArrays xSegments ySegments
  { g with
    xSegCount := xSegments
    ySegCount := ySegments
    vertexCount := (xSegments + 1) * (ySegments + 1)
    quadCount := xSegments * ySegments * 2
    uv := a.uv
    uvNorm := a.uvNorm
    index := a.index }

/-- The position array `setSize` starts from: the existing array when it
is present and its length is exactly `3 * vertexCount`, otherwise a fresh
zeroed `Float32Array(3 * vertexCount)`. -/
def setSizeBase (g : PlaneGeometry) : List ℚ :=
  match g.position with
  | none => List.replicate (3 * g.vertexCount) 0
  | some p => if p.length = 3 * g.vertexCount then p else List.replicate (3 * g.vertexCount) 0

/-- JavaScript `'xyz'.indexOf(orientation[k])`: `-1` when the character is
absent or the orientation string is too short. -/
def axisIndex (orientation : String) (k : ℕ) : Int :=
  match orientation.data.get? k with
  | some c =>
    match "xyz".data.indexOf? c with
    | some i => (i : Int)
    | none => -1
  | none => -1

/-- One typed-array position write `posArray[3*vertexIndex + axis] = v`
where `axis` may be `-1` (character not found).  Writes at negative or
out-of-range computed indices are ignored, as the typed array does. -/
def setAxisWrite (p : List ℚ) (base : ℕ) (axis : Int) (v : ℚ) : List ℚ :=
  if 0 ≤ (base : Int) + axis then p.set ((base : Int) + axis).toNat v else p

/-- `PlaneGeometry.setSize(width, height, orientation)`: stores the size
and orientation, reuses or reallocates the position array
(see `setSizeBase`), and writes the two oriented components of every
vertex position.  The UV, normalized-UV and index arrays are not touched. -/
def setSize (g : PlaneGeometry) (width height : ℚ) (orientation : String) : PlaneGeometry :=
  let halfWidth := width / (-2)
  let halfHeight := height / (-2)
  let segmentWidth := width / (g.xSegCount : ℚ)
  let segmentHeight := height / (g.ySegCount : ℚ)
  let pos := (List.range (g.ySegCount + 1)).foldl (fun p (y : ℕ) =>
    let yPos := halfHeight + (y : ℚ) * segmentHeight
    (List.range (g.xSegCount + 1)).foldl (fun p (x : ℕ) =>
      let xPos := halfWidth + (x : ℚ) * segmentWidth
      let vi : ℕ := y * (g.xSegCount + 1) + x
      let p1 := setAxisWrite p (3 * vi) (axisIndex orientation 0) xPos
      setAxisWrite p1 (3 * vi) (axisIndex orientation 1) (-yPos)) p) (setSizeBase g)
  { g with
    width := width
    height := height
    orientation := orientation
    position := some pos }

/-- The value held at offset `j` (`0 ≤ j < 6`) of an interior cell's six
index entries, for top-left vertex `vi`: the two triangles
`(vi, vi+1+xSeg, vi+1)` and `(vi+1, vi+1+xSeg, vi+2+xSeg)`, each entry
reduced modulo `2 ^ 16` by the `Uint16Array`. -/
def indexVal (xSeg vi j : ℕ) : ℕ :=
  if j = 0 then vi % 65536
  else if j = 1 then (vi + 1 + xSeg) % 65536
  else if j = 2 then (vi + 1) % 65536
  else if j = 3 then (vi + 1) % 65536
  else if j = 4 then (vi + 1 + xSeg) % 65536
  else (vi + 2 + xSeg) % 65536

/-- The `PlaneGeometry` constructor before its `setTopology`/`setSize`
calls: all attribute arrays empty, the position array not yet allocated,
the numeric fields not yet assigned (declared with `!` in the source). -/
def planeGeometryBlank : PlaneGeometry :=
  { width := 0, height := 0, orientation := "", xSegCount := 0, ySegCount := 0,
    vertexCount := 0, quadCount := 0, position := none, uv := [], uvNorm := [], index := [] }

/-- `new PlaneGeometry(context, width, height, xSegments, ySegments, orientation)`:
creates the attributes and then runs `setTopology` followed by `setSize`. -/
def planeGeometryNew (width height : ℚ) (xSegments ySegments : ℕ)
    (orientation : String) : PlaneGeometry :=
  setSize (setTopology planeGeometryBlank xSegments ySegments) width height orientation

/-- A concrete fully-initialized 1×1 `PlaneGeometry` (the state after
`new PlaneGeometry(ctx, 10, 10)`): used to exercise frame properties on a
geometry whose position array is present with the matching length. -/
def planeGeometrySample : PlaneGeometry :=
  { width := 10, height := 10, orientation := "xz", xSegCount := 1, ySegCount := 1,
    vertexCount := 4, quadCount := 2, position := some (List.replicate 12 0),
    uv := [0, 1, 1, 1, 0, 0, 1, 0], uvNorm := [-1, 1, 1, 1, -1, -1, 1, -1],
    index := [0, 2, 1, 1, 2, 3] }

/-- The uniform values of a `MorphGradient` material that the claims
observe, captured at `initMaterial` time.  The remaining uniforms built by
`initMaterial` (`u_vertDeform`, `u_baseColor`, `u_waveLayers`) are likewise
captured once from constants or section colors and are never referenced by
the claims, so they are not carried in the model. -/
structure MorphUniforms where
  u_time : ℚ
  u_shadow_power : ℚ
  u_darken_top : ℚ
  u_global_noiseFreq : List ℚ
  u_global_noiseSpeed : ℚ

/-- State of a `MorphGradient` effect (the fields the claims observe). -/
structure MorphGradient where
  width : ℚ
  height : ℚ
  density : ℚ × ℚ
  freqX : ℚ
  freqY : ℚ
  darkenTop : Bool
  activeColors : List ℕ
  xSegCount : ℕ
  ySegCount : ℕ
  geometry : PlaneGeometry
  uniforms : MorphUniforms

/-- `MorphGradient.initMaterial` (the uniform-building part): every uniform
value is captured at call time; in particular `u_global.noiseFreq` is a
fresh two-element array `[this.freqX, this.freqY]` (captured by value). -/
def morphInitMaterial (s : MorphGradient) : MorphGradient :=
  { s with uniforms :=
    { u_time := 0
      u_shadow_power := 5
      u_darken_top := if s.darkenTop then 1 else 0
      u_global_noiseFreq := [s.freqX, s.freqY]
      u_global_noiseSpeed := 5 / 1000000 } }

/-- `MorphGradient.updateFrequency(delta)`: adds `delta` to the `freqX` and
`freqY` configuration fields and touches nothing else. -/
def updateFrequency (delta : ℚ) (s : MorphGradient) : MorphGradient :=
  { s with freqX := s.freqX + delta, freqY := s.freqY + delta }

/-- `MorphGradient.toggleColor(index)`:
`this.activeColors[index] = this.activeColors[index] === 0 ? 1 : 0`.
Out-of-range indices (which would extend the JavaScript array) are outside
every claim's scope and are modelled as a no-op. -/
def toggleColor (i : ℕ) (s : MorphGradient) : MorphGradient :=
  { s with activeColors :=
    match s.activeColors[i]? with
    | some v => s.activeColors.set i (if v = 0 then 1 else 0)
    | none => s.activeColors }

/-- The observable value of the `u_active_colors` uniform.  `initMaterial`
assigns `value: this.activeColors` — the very array object held by the
effect — so at any time the uniform's value is the current contents of
`activeColors`; the model renders this aliasing by reading the shared
array. -/
def morphActiveColorsUniform (s : MorphGradient) : List ℕ :=
  s.activeColors

/-- `MorphGradient.resize()`: sets `width` from `window.innerWidth`
(the viewport height is never read — `this.height` keeps its own value),
recomputes the segment counts as `ceil(width * density[0])` and
`ceil(this.height * density[1])`, rebuilds the mesh topology, resizes the
geometry, and re-derives the width-dependent `u_shadow_power` uniform.
`hikari.setSize` and `applyTransformations` act on the render context,
which is not part of this state. -/
def morphResize (innerWidth innerHeight : ℚ) (s : MorphGradient) : MorphGradient :=
  let width := innerWidth
  let xSegCount := ⌈width * s.density.1⌉₊
  let ySegCount := ⌈s.height * s.density.2⌉₊
  let g := setSize (setTopology s.geometry xSegCount ySegCount) width s.height "xz"
  { s with
    width := width
    xSegCount := xSegCount
    ySegCount := ySegCount
    geometry := g
    uniforms := { s.uniforms with u_shadow_power := if width < 600 then 5 else 6 } }

/-- A concrete `MorphGradient` in the end-to-end scenario's starting state:
an 800×600 viewport already initialized, with density `[0.01, 0.01]` and
the effect's `height` field at its initial value `600`. -/
def morphSample : MorphGradient :=
  { width := 800, height := 600, density := (1/100, 1/100),
    freqX := 14/100000, freqY := 29/100000, darkenTop := true,
    activeColors := [1, 1, 1, 1], xSegCount := 8, ySegCount := 6,
    geometry := planeGeometryNew 800 600 8 6 "xz",
    uniforms :=
      { u_time := 0, u_shadow_power := 6, u_darken_top := 1,
        u_global_noiseFreq := [14/100000, 29/100000],
        u_global_noiseSpeed := 5 / 1000000 } }

/-- Scheduler state of one effect's animation machinery (`MorphGradient`
and `BalatroGradient` have the same `play`/`pause`/`animate` structure):
the `conf.playing` flag, the number of animation-frame callbacks currently
scheduled and not yet fired (`pending`), and the cumulative number of
`render()` calls. -/
structure AnimState where
  playing : Bool
  pending : ℕ
  renders : ℕ

/-- Events of the animation model: the public `play()` and `pause()`
calls, and one simulated browser frame (`frame`), which fires every
currently scheduled callback once. -/
inductive AnimEvent where
  | play
  | pause
  | frame

/-- One step of the animation model.
`play()` runs `requestAnimationFrame(this.animate)` unconditionally and
then sets the playing flag, so it always schedules one more callback.
`pause()` only clears the flag.  On a `frame`, each fired callback either
renders and reschedules exactly itself (flag set), or returns before
rendering and without rescheduling (flag clear); `animate` never changes
the flag, so all callbacks of one frame see the same value. -/
def animStep (s : AnimState) : AnimEvent → AnimState
  | .play => { s with pending := s.pending + 1, playing := true }
  | .pause => { s with playing := false }
  | .frame =>
    if s.playing then { s with renders := s.renders + s.pending }
    else { s with pending := 0 }

/-- Runs a sequence of animation events from a starting state. -/
def runEvents (s : AnimState) (es : List AnimEvent) : AnimState :=
  es.foldl animStep s

/-- Number of `play()` calls in an event sequence. -/
def countPlays : List AnimEvent → ℕ
  | [] => 0
  | .play :: es => countPlays es + 1
  | _ :: es => countPlays es

/-- Number of simulated frames in an event sequence. -/
def countFrames : List AnimEvent → ℕ
  | [] => 0
  | .frame :: es => countFrames es + 1
  | _ :: es => countFrames es

/-- The scheduler state before any chain is started: paused, nothing
scheduled, nothing rendered. -/
def animIdle : AnimState :=
  { playing := false, pending := 0, renders := 0 }

/-- A uniform value as `Material.attachUniforms` and
`Uniform.getDeclaration` traverse it.  The constructor mirrors the
`type` field of the source's `Uniform`: `base t ex` is any
non-`array`/non-`struct` uniform of GLSL type string `t` (the data-model
invariant ties the `array`/`struct` type strings to list/record-shaped
values, which the constructors make structural).  `ex` is the optional
`excludeFrom` stage. -/
inductive GlUniform where
  | base (t : String) (ex : Option String)
  | arr (ex : Option String) (elems : List GlUniform)
  | strct (ex : Option String) (fields : List (String × GlUniform))

/-- Whether a uniform is a leaf (not of type `array` or `struct`). -/
def isLeafUniform : GlUniform → Bool
  | .base _ _ => true
  | .arr _ _ => false
  | .strct _ _ => false

mutual

/-- `Material.attachUniforms(name, uniforms)` for a single named uniform,
parameterised by the context's location resolver
(`getUniformLocation`, which returns `null` — modelled `none` — when the
name does not resolve).  Array uniforms recurse into each element under
the indexed name `name[i]`; struct uniforms recurse into each field under
the dotted name `name.field`; every other uniform pushes a
`(uniform, location)` pair with whatever the resolver returned. -/
def attachUniforms (resolve : String → Option ℕ) (name : String) :
    GlUniform → List (GlUniform × Option ℕ)
  | .base t ex => [(GlUniform.base t ex, resolve name)]
  | .arr _ es => attachUniformsArr resolve name 0 es
  | .strct _ fs => attachUniformsFields resolve name fs

/-- The `forEach` over an array uniform's elements in `attachUniforms`,
starting at element index `i`. -/
def attachUniformsArr (resolve : String → Option ℕ) (name : String) (i : ℕ) :
    List GlUniform → List (GlUniform × Option ℕ)
  | [] => []
  | e :: rest =>
    attachUniforms resolve (name ++ "[" ++ toString i ++ "]") e ++
      attachUniformsArr resolve name (i + 1) rest

/-- The `forEach` over a struct uniform's fields in `attachUniforms`. -/
def attachUniformsFields (resolve : String → Option ℕ) (name : String) :
    List (String × GlUniform) → List (GlUniform × Option ℕ)
  | [] => []
  | (f, e) :: rest =>
    attachUniforms resolve (name ++ "." ++ f) e ++
      attachUniformsFields resolve name rest

end

mutual

/-- Specification of the binding walk, following the spec's words: the
flat list of leaf uniforms of a tree, each with its fully qualified GLSL
name (`base[i]` for array elements, `base.field` for struct fields). -/
def leafBindings (name : String) : GlUniform → List (GlUniform × String)
  | .base t ex => [(GlUniform.base t ex, name)]
  | .arr _ es => leafBindingsArr name 0 es
  | .strct _ fs => leafBindingsFields name fs

/-- Leaves of an array uniform's elements, numbering from `i`. -/
def leafBindingsArr (name : String) (i : ℕ) :
    List GlUniform → List (GlUniform × String)
  | [] => []
  | e :: rest =>
    leafBindings (name ++ "[" ++ toString i ++ "]") e ++ leafBindingsArr name (i + 1) rest

/-- Leaves of a struct uniform's fields. -/
def leafBindingsFields (name : String) :
    List (String × GlUniform) → List (GlUniform × String)
  | [] => []
  | (f, e) :: rest =>
    leafBindings (name ++ "." ++ f) e ++ leafBindingsFields name rest

end

/-- The guard of `Uniform.update(location, gl)`: the upload call is made
only when the value is defined, the location is non-null and the context
is present — a null location stored in a binding is silently skipped. -/
def uniformUpdateFires (valueDefined : Bool) (location : Option ℕ) (glPresent : Bool) : Bool :=
  valueDefined && location.isSome && glPresent

/-- JavaScript `name.replace('u_', '')`: removes the first occurrence of
the substring `u_`. -/
def removeFirstUnderscoreTag : List Char → List Char
  | [] => []
  | 'u' :: '_' :: rest => rest
  | c :: rest => c :: removeFirstUnderscoreTag rest

/-- JavaScript `s.charAt(0).toUpperCase() + s.slice(1)`. -/
def capitalizeFirst : List Char → List Char
  | [] => []
  | c :: rest => c.toUpper :: rest

/-- The synthesized GLSL struct type name of `Uniform.getDeclaration`:
strip the first `u_`, capitalize the first character. -/
def structTypeName (name : String) : String :=
  String.mk (capitalizeFirst (removeFirstUnderscoreTag name.data))

/-- JavaScript `s.replace(/^uniform/, '')`: drops a leading `uniform`. -/
def stripLeadingUniform (s : String) : String :=
  if s.startsWith "uniform" then s.drop 7 else s

/-- The `[n]` suffix appended to a declaration when `length > 0`. -/
def glslSuffix (len : ℕ) : String :=
  if len > 0 then "[" ++ toString len ++ "]" else ""

mutual

/-- `Uniform.getDeclaration(name, type, length)`.  Returns `none` exactly
where the JavaScript would throw: for an `array` uniform with an empty
element list (`this.value[0]` is `undefined`).  A uniform excluded from
the queried stage yields the empty string. -/
def getDeclaration (u : GlUniform) (name ty : String) (len : ℕ) : Option String :=
  match u with
  | .base t ex =>
    if ex = some ty then some "" else
    some ("uniform " ++ t ++ " " ++ name ++ glslSuffix len ++ ";")
  | .arr ex es =>
    if ex = some ty then some "" else
    match es with
    | [] => none
    | e :: rest =>
      match getDeclaration e name ty (rest.length + 1) with
      | some d =>
        some (d ++ "\nconst int " ++ name ++ "_length = " ++
          toString (rest.length + 1) ++ ";")
      | none => none
  | .strct ex fs =>
    if ex = some ty then some "" else
    match getDeclarationFields fs ty with
    | some body =>
      some ("uniform struct " ++ structTypeName name ++ " \x7b\n" ++ body ++
        "\n\x7d " ++ name ++ glslSuffix len ++ ";")
    | none => none

/-- The mapped-and-joined field declarations of a struct uniform, each
with its leading `uniform` keyword stripped. -/
def getDeclarationFields (fs : List (String × GlUniform)) (ty : String) : Option String :=
  match fs with
  | [] => some ""
  | (f, e) :: rest =>
    match getDeclaration e f ty 0, getDeclarationFields rest ty with
    | some d, some r => some (stripLeadingUniform d ++ r)
    | _, _ => none

end

/-- Substring containment on strings, stated over the character lists. -/
def strContains (s t : String) : Prop :=
  ∃ l r : List Char, s.data = l ++ t.data ++ r

/-- The value of one hexadecimal digit character, if it is one. -/
def hexDigitVal : Char → Option ℕ
  | c =>
    if '0' ≤ c ∧ c ≤ '9' then some (c.toNat - '0'.toNat)
    else if 'a' ≤ c ∧ c ≤ 'f' then some (c.toNat - 'a'.toNat + 10)
    else if 'A' ≤ c ∧ c ≤ 'F' then some (c.toNat - 'A'.toNat + 10)
    else none

/-- Accumulating loop of `parseInt(s, 16)`: consumes hexadecimal digits
until the first non-digit. -/
def parseIntHexGo (acc : ℕ) : List Char → ℕ
  | [] => acc
  | c :: rest =>
    match hexDigitVal c with
    | some d => parseIntHexGo (16 * acc + d) rest
    | none => acc

/-- JavaScript `parseInt(s, 16)` on a short digit string: the value of the
longest hexadecimal-digit prefix, or `NaN` (`none`) when the first
character is not a digit. -/
def parseIntHex (s : List Char) : Option ℕ :=
  match s with
  | [] => none
  | c :: rest =>
    match hexDigitVal c with
    | some d => some (parseIntHexGo d rest)
    | none => none

/-- JavaScript `hex.replace("#", "")`: removes the first occurrence of
`#`. -/
def replaceFirstHash : List Char → List Char
  | [] => []
  | c :: rest => if c = '#' then rest else c :: replaceFirstHash rest

/-- A JavaScript RGBA quadruple whose channels may be `NaN` (`none`). -/
abbrev JsVec4 : Type := Option ℚ × Option ℚ × Option ℚ × Option ℚ

/-- One color channel of `hexToVec4`: `parseInt(slice, 16) / 255`. -/
def hexChannel (s : List Char) : Option ℚ :=
  (parseIntHex s).map (fun k => (k : ℚ) / 255)

/-- `hexToVec4(hex)` of the Balatro gradient module: strips the first
`#`, then parses `#RRGGBB` (alpha 1) or `#RRGGBBAA`; every other digit
length — including the 3-digit `#RGB` shorthand — falls through to the
initial values `[0, 0, 0, 1]`. -/
def hexToVec4 (hex : List Char) : JsVec4 :=
  let hexStr := replaceFirstHash hex
  if hexStr.length = 6 then
    (hexChannel (hexStr.take 2), hexChannel ((hexStr.drop 2).take 2),
     hexChannel ((hexStr.drop 4).take 2), some 1)
  else if hexStr.length = 8 then
    (hexChannel (hexStr.take 2), hexChannel ((hexStr.drop 2).take 2),
     hexChannel ((hexStr.drop 4).take 2), hexChannel ((hexStr.drop 6).take 2))
  else (some 0, some 0, some 0, some 1)

/-- The color uniforms of a `BalatroGradient` material. -/
structure BalatroUniforms where
  u_color1 : JsVec4
  u_color2 : JsVec4
  u_color3 : JsVec4

/-- State of a `BalatroGradient` effect (the fields the claims observe).
`uniforms` is `none` until `initMaterial` has run, matching the
`if (this.uniforms)` guards of the setters. -/
structure BalatroGradient where
  color1 : List Char
  color2 : List Char
  color3 : List Char
  uniforms : Option BalatroUniforms

/-- The constructor's initial color fields (before options). -/
def balatroDefault : BalatroGradient :=
  { color1 := "#DE443B".data, color2 := "#006BB4".data, color3 := "#162325".data,
    uniforms := none }

/-- The `if (options.colorN !== undefined)` assignments of the
`BalatroGradient` constructor. -/
def balatroApplyColorOptions (c1 c2 c3 : Option (List Char)) (s : BalatroGradient) :
    BalatroGradient :=
  { s with color1 := c1.getD s.color1, color2 := c2.getD s.color2, color3 := c3.getD s.color3 }

/-- `BalatroGradient.initMaterial` (the color-uniform part): each color
uniform's value is `hexToVec4` of the corresponding color field. -/
def balatroInitMaterial (s : BalatroGradient) : BalatroGradient :=
  { s with uniforms := some ⟨hexToVec4 s.color1, hexToVec4 s.color2, hexToVec4 s.color3⟩ }

/-- `BalatroGradient.setColor1(color)`: stores the color string and, when
the uniforms exist, writes `hexToVec4(color)` into `u_color1`. -/
def setColor1 (c : List Char) (s : BalatroGradient) : BalatroGradient :=
  { s with
    color1 := c
    uniforms := s.uniforms.map (fun u => { u with u_color1 := hexToVec4 c }) }

/-- `BalatroGradient.setColor2(color)`. -/
def setColor2 (c : List Char) (s : BalatroGradient) : BalatroGradient :=
  { s with
    color2 := c
    uniforms := s.uniforms.map (fun u => { u with u_color2 := hexToVec4 c }) }

/-- `BalatroGradient.setColor3(color)`. -/
def setColor3 (c : List Char) (s : BalatroGradient) : BalatroGradient :=
  { s with
    color3 := c
    uniforms := s.uniforms.map (fun u => { u with u_color3 := hexToVec4 c }) }

/-! Loop bookkeeping for `setTopology`. -/

theorem foldl_invariant {α β : Type} (f : β → α → β) (P : β → Prop)
    (l : List α) (b : β) (hb : P b) (hf : ∀ c a, P c → P (f c a)) : P (l.foldl f b) := by
  induction l generalizing b with
  | nil => exact hb
  | cons a l ih => exact ih _ (hf _ _ hb)

theorem topoBody_uv_length (xSeg ySeg y x : ℕ) (a : TopoArrays) :
    (topoBody xSeg ySeg y x a).uv.length = a.uv.length := by
  simp [topoBody]

theorem topoBody_uvNorm_length (xSeg ySeg y x : ℕ) (a : TopoArrays) :
    (topoBody xSeg ySeg y x a).uvNorm.length = a.uvNorm.length := by
  simp [topoBody]

theorem topoBody_index_length (xSeg ySeg y x : ℕ) (a : TopoArrays) :
    (topoBody xSeg ySeg y x a).index.length = a.index.length := by
  simp only [topoBody]
  split <;> simp

theorem innerPartial_succ (xSeg ySeg y m : ℕ) (a : TopoArrays) :
    innerPartial xSeg ySeg y (m + 1) a =
      topoBody xSeg ySeg y m (innerPartial xSeg ySeg y m a) := by
  unfold innerPartial
  rw [List.range_succ, List.foldl_append]
  rfl

theorem innerPartial_lengths (xSeg ySeg y m : ℕ) (a : TopoArrays) :
    (innerPartial xSeg ySeg y m a).uv.length = a.uv.length ∧
    (innerPartial xSeg ySeg y m a).uvNorm.length = a.uvNorm.length ∧
    (innerPartial xSeg ySeg y m a).index.length = a.index.length := by
  unfold innerPartial
  refine foldl_invariant _
    (fun b => b.uv.length = a.uv.length ∧ b.uvNorm.length = a.uvNorm.length ∧
      b.index.length = a.index.length) _ a ⟨rfl, rfl, rfl⟩ ?_
  intro c x ⟨h1, h2, h3⟩
  exact ⟨(topoBody_uv_length xSeg ySeg y x c).trans h1,
    (topoBody_uvNorm_length xSeg ySeg y x c).trans h2,
    (topoBody_index_length xSeg ySeg y x c).trans h3⟩

theorem innerRow_lengths (xSeg ySeg y : ℕ) (a : TopoArrays) :
    (innerRow xSeg ySeg y a).uv.length = a.uv.length ∧
    (innerRow xSeg ySeg y a).uvNorm.length = a.uvNorm.length ∧
    (innerRow xSeg ySeg y a).index.length = a.index.length :=
  innerPartial_lengths xSeg ySeg y (xSeg + 1) a

theorem outerPartial_succ (xSeg ySeg n : ℕ) (a : TopoArrays) :
    outerPartial xSeg ySeg (n + 1) a =
      innerRow xSeg ySeg n (outerPartial xSeg ySeg n a) := by
  unfold outerPartial
  rw [List.range_succ, List.foldl_append]
  rfl

theorem outerPartial_lengths (xSeg ySeg n : ℕ) (a : TopoArrays) :
    (outerPartial xSeg ySeg n a).uv.length = a.uv.length ∧
    (outerPartial xSeg ySeg n a).uvNorm.length = a.uvNorm.length ∧
    (outerPartial xSeg ySeg n a).index.length = a.index.length := by
  unfold outerPartial
  refine foldl_invariant _
    (fun b => b.uv.length = a.uv.length ∧ b.uvNorm.length = a.uvNorm.length ∧
      b.index.length = a.index.length) _ a ⟨rfl, rfl, rfl⟩ ?_
  intro c y ⟨h1, h2, h3⟩
  obtain ⟨g1, g2, g3⟩ := innerRow_lengths xSeg ySeg y c
  exact ⟨g1.trans h1, g2.trans h2, g3.trans h3⟩

theorem topoArrays_uv_length (xSeg ySeg : ℕ) :
    (topoArrays xSeg ySeg).uv.length = 2 * ((xSeg + 1) * (ySeg + 1)) := by
  unfold topoArrays
  rw [(outerPartial_lengths xSeg ySeg (ySeg + 1) (topoInit xSeg ySeg)).1]
  simp [topoInit]

theorem topoArrays_uvNorm_length (xSeg ySeg : ℕ) :
    (topoArrays xSeg ySeg).uvNorm.length = 2 * ((xSeg + 1) * (ySeg + 1)) := by
  unfold topoArrays
  rw [(outerPartial_lengths xSeg ySeg (ySeg + 1) (topoInit xSeg ySeg)).2.1]
  simp [topoInit]

theorem topoArrays_index_length (xSeg ySeg : ℕ) :
    (topoArrays xSeg ySeg).index.length = 3 * (xSeg * ySeg * 2) := by
  unfold topoArrays
  rw [(outerPartial_lengths xSeg ySeg (ySeg + 1) (topoInit xSeg ySeg)).2.2]
  simp [topoInit]

/-- The attribute arrays of `setTopology` are the generated arrays, and
the position array is untouched; `setSize` touches only the position
array and the size/orientation fields. -/
theorem setTopology_uv_eq (g : PlaneGeometry) (xs ys : ℕ) :
    (setTopology g xs ys).uv = (topoArrays xs ys).uv := rfl

theorem setTopology_uvNorm_eq (g : PlaneGeometry) (xs ys : ℕ) :
    (setTopology g xs ys).uvNorm = (topoArrays xs ys).uvNorm := rfl

theorem setTopology_index_eq (g : PlaneGeometry) (xs ys : ℕ) :
    (setTopology g xs ys).index = (topoArrays xs ys).index := rfl

theorem setTopology_position_eq (g : PlaneGeometry) (xs ys : ℕ) :
    (setTopology g xs ys).position = g.position := rfl

theorem setSize_uv_eq (g : PlaneGeometry) (w h : ℚ) (o : String) :
    (setSize g w h o).uv = g.uv := rfl

theorem setSize_uvNorm_eq (g : PlaneGeometry) (w h : ℚ) (o : String) :
    (setSize g w h o).uvNorm = g.uvNorm := rfl

theorem setSize_index_eq (g : PlaneGeometry) (w h : ℚ) (o : String) :
    (setSize g w h o).index = g.index := rfl

/-! Address arithmetic of the generation loops. -/

theorem vertexAddr_bound (xSeg ySeg y x : ℕ) (hy : y ≤ ySeg) (hx : x ≤ xSeg) :
    y * (xSeg + 1) + x < (xSeg + 1) * (ySeg + 1) := by
  have h1 : y * (xSeg + 1) ≤ ySeg * (xSeg + 1) := Nat.mul_le_mul_right _ hy
  have h2 : (xSeg + 1) * (ySeg + 1) = ySeg * (xSeg + 1) + (xSeg + 1) := by ring
  omega

theorem quadAddr_bound (xSeg ySeg y x : ℕ) (hy : y < ySeg) (hx : x < xSeg) :
    y * xSeg + x < xSeg * ySeg := by
  have h1 : (y + 1) * xSeg ≤ ySeg * xSeg := Nat.mul_le_mul_right _ hy
  have h2 : (y + 1) * xSeg = y * xSeg + xSeg := by ring
  have h3 : xSeg * ySeg = ySeg * xSeg := Nat.mul_comm ..
  omega

theorem indexVal_lt_vertexCount (xSeg ySeg y x j : ℕ) (hy : y < ySeg) (hx : x < xSeg) :
    indexVal xSeg (y * (xSeg + 1) + x) j < (xSeg + 1) * (ySeg + 1) := by
  have h1 : (y + 1) * (xSeg + 1) ≤ ySeg * (xSeg + 1) := Nat.mul_le_mul_right _ hy
  have h2 : (y + 1) * (xSeg + 1) = y * (xSeg + 1) + xSeg + 1 := by ring
  have h3 : (xSeg + 1) * (ySeg + 1) = ySeg * (xSeg + 1) + xSeg + 1 := by ring
  have hm0 := Nat.mod_le (y * (xSeg + 1) + x) 65536
  have hm1 := Nat.mod_le (y * (xSeg + 1) + x + 1 + xSeg) 65536
  have hm2 := Nat.mod_le (y * (xSeg + 1) + x + 1) 65536
  have hm5 := Nat.mod_le (y * (xSeg + 1) + x + 2 + xSeg) 65536
  unfold indexVal
  split
  · omega
  split
  · omega
  split
  · omega
  split
  · omega
  split
  · omega
  · omega

/-! Effect of one loop iteration on single entries. -/

theorem topoBody_uv_write (xSeg ySeg y x : ℕ) (a : TopoArrays)
    (h : 2 * (y * (xSeg + 1) + x) + 1 < a.uv.length) :
    (topoBody xSeg ySeg y x a).uv[2 * (y * (xSeg + 1) + x)]? = some ((x : ℚ) / (xSeg : ℚ)) ∧
    (topoBody xSeg ySeg y x a).uv[2 * (y * (xSeg + 1) + x) + 1]? =
      some (1 - (y : ℚ) / (ySeg : ℚ)) := by
  constructor
  · simp only [topoBody]
    rw [List.getElem?_set_ne (by omega), List.getElem?_set_eq_of_lt _ (by omega)]
  · simp only [topoBody]
    rw [List.getElem?_set_eq_of_lt _ (by (try simp only [List.length_set]); omega)]

theorem topoBody_uvNorm_write (xSeg ySeg y x : ℕ) (a : TopoArrays)
    (h : 2 * (y * (xSeg + 1) + x) + 1 < a.uvNorm.length) :
    (topoBody xSeg ySeg y x a).uvNorm[2 * (y * (xSeg + 1) + x)]? =
      some ((x : ℚ) / (xSeg : ℚ) * 2 - 1) ∧
    (topoBody xSeg ySeg y x a).uvNorm[2 * (y * (xSeg + 1) + x) + 1]? =
      some (1 - (y : ℚ) / (ySeg : ℚ) * 2) := by
  constructor
  · simp only [topoBody]
    rw [List.getElem?_set_ne (by omega), List.getElem?_set_eq_of_lt _ (by omega)]
  · simp only [topoBody]
    rw [List.getElem?_set_eq_of_lt _ (by (try simp only [List.length_set]); omega)]

theorem topoBody_uv_skip (xSeg ySeg y x k : ℕ) (a : TopoArrays)
    (h : k < 2 * (y * (xSeg + 1) + x) ∨ 2 * (y * (xSeg + 1) + x) + 2 ≤ k) :
    (topoBody xSeg ySeg y x a).uv[k]? = a.uv[k]? ∧
    (topoBody xSeg ySeg y x a).uvNorm[k]? = a.uvNorm[k]? := by
  constructor <;>
  · simp only [topoBody]
    rw [List.getElem?_set_ne (by omega), List.getElem?_set_ne (by omega)]

theorem topoBody_index_skip (xSeg ySeg y x k : ℕ) (a : TopoArrays)
    (h : k < 6 * (y * xSeg + x) ∨ 6 * (y * xSeg + x) + 6 ≤ k) :
    (topoBody xSeg ySeg y x a).index[k]? = a.index[k]? := by
  simp only [topoBody]
  split
  · rw [List.getElem?_set_ne (by omega), List.getElem?_set_ne (by omega),
      List.getElem?_set_ne (by omega), List.getElem?_set_ne (by omega),
      List.getElem?_set_ne (by omega), List.getElem?_set_ne (by omega)]
  · rfl

theorem topoBody_index_noWrite (xSeg ySeg y x : ℕ) (a : TopoArrays)
    (h : ¬(x < xSeg ∧ y < ySeg)) :
    (topoBody xSeg ySeg y x a).index = a.index := by
  simp only [topoBody, if_neg h]

theorem topoBody_index_write (xSeg ySeg y x : ℕ) (a : TopoArrays)
    (hx : x < xSeg) (hy : y < ySeg) (h : 6 * (y * xSeg + x) + 5 < a.index.length) :
    ∀ j, j < 6 → (topoBody xSeg ySeg y x a).index[6 * (y * xSeg + x) + j]? =
      some (indexVal xSeg (y * (xSeg + 1) + x) j) := by
  intro j hj
  simp only [topoBody, if_pos (show x < xSeg ∧ y < ySeg from ⟨hx, hy⟩)]
  interval_cases j <;>
    (try simp only [Nat.add_zero]) <;>
    (repeat rw [List.getElem?_set_ne (by omega)]) <;>
    rw [List.getElem?_set_eq_of_lt _ (by (try simp only [List.length_set]); omega)] <;>
    simp [indexVal]

/-! Characterization of the inner loop (one row of grid points). -/

theorem innerPartial_uv_entries (xSeg ySeg y : ℕ) (hy : y ≤ ySeg) :
    ∀ m, m ≤ xSeg + 1 → ∀ a : TopoArrays,
      a.uv.length = 2 * ((xSeg + 1) * (ySeg + 1)) →
      a.uvNorm.length = 2 * ((xSeg + 1) * (ySeg + 1)) →
      ∀ x, x < m →
        (innerPartial xSeg ySeg y m a).uv[2 * (y * (xSeg + 1) + x)]? =
          some ((x : ℚ) / (xSeg : ℚ)) ∧
        (innerPartial xSeg ySeg y m a).uv[2 * (y * (xSeg + 1) + x) + 1]? =
          some (1 - (y : ℚ) / (ySeg : ℚ)) ∧
        (innerPartial xSeg ySeg y m a).uvNorm[2 * (y * (xSeg + 1) + x)]? =
          some ((x : ℚ) / (xSeg : ℚ) * 2 - 1) ∧
        (innerPartial xSeg ySeg y m a).uvNorm[2 * (y * (xSeg + 1) + x) + 1]? =
          some (1 - (y : ℚ) / (ySeg : ℚ) * 2) := by
  intro m
  induction m with
  | zero => intro _ a _ _ x hx; exact absurd hx (Nat.not_lt_zero x)
  | succ m ih =>
    intro hm a ha1 ha2 x hx
    rw [innerPartial_succ]
    obtain ⟨l1, l2, l3⟩ := innerPartial_lengths xSeg ySeg y m a
    rcases Nat.lt_or_ge x m with hxm | hxm
    · have hprev := ih (by omega) a ha1 ha2 x hxm
      have hs0 := topoBody_uv_skip xSeg ySeg y m (2 * (y * (xSeg + 1) + x))
        (innerPartial xSeg ySeg y m a) (by omega)
      have hs1 := topoBody_uv_skip xSeg ySeg y m (2 * (y * (xSeg + 1) + x) + 1)
        (innerPartial xSeg ySeg y m a) (by omega)
      exact ⟨hs0.1.trans hprev.1, hs1.1.trans hprev.2.1,
        hs0.2.trans hprev.2.2.1, hs1.2.trans hprev.2.2.2⟩
    · have hxe : x = m := by omega
      subst hxe
      have hvb := vertexAddr_bound xSeg ySeg y x hy (by omega)
      have hlen1 : 2 * (y * (xSeg + 1) + x) + 1 <
          (innerPartial xSeg ySeg y x a).uv.length := by
        rw [l1, ha1]; omega
      have hlen2 : 2 * (y * (xSeg + 1) + x) + 1 <
          (innerPartial xSeg ySeg y x a).uvNorm.length := by
        rw [l2, ha2]; omega
      obtain ⟨w1, w2⟩ := topoBody_uv_write xSeg ySeg y x (innerPartial xSeg ySeg y x a) hlen1
      obtain ⟨w3, w4⟩ := topoBody_uvNorm_write xSeg ySeg y x (innerPartial xSeg ySeg y x a) hlen2
      exact ⟨w1, w2, w3, w4⟩

theorem innerPartial_uv_frame (xSeg ySeg y : ℕ) :
    ∀ m, ∀ a : TopoArrays, ∀ k,
      (k < 2 * (y * (xSeg + 1)) ∨ 2 * (y * (xSeg + 1) + m) ≤ k) →
      (innerPartial xSeg ySeg y m a).uv[k]? = a.uv[k]? ∧
      (innerPartial xSeg ySeg y m a).uvNorm[k]? = a.uvNorm[k]? := by
  intro m
  induction m with
  | zero => intro a k _; exact ⟨rfl, rfl⟩
  | succ m ih =>
    intro a k hk
    rw [innerPartial_succ]
    have hs := topoBody_uv_skip xSeg ySeg y m k (innerPartial xSeg ySeg y m a) (by omega)
    have hi := ih a k (by omega)
    exact ⟨hs.1.trans hi.1, hs.2.trans hi.2⟩

theorem innerPartial_index_entries (xSeg ySeg y : ℕ) (hy : y < ySeg) :
    ∀ m, m ≤ xSeg → ∀ a : TopoArrays,
      a.index.length = 3 * (xSeg * ySeg * 2) →
      ∀ x, x < m → ∀ j, j < 6 →
        (innerPartial xSeg ySeg y m a).index[6 * (y * xSeg + x) + j]? =
          some (indexVal xSeg (y * (xSeg + 1) + x) j) := by
  intro m
  induction m with
  | zero => intro _ a _ x hx; exact absurd hx (Nat.not_lt_zero x)
  | succ m ih =>
    intro hm a ha x hx j hj
    rw [innerPartial_succ]
    obtain ⟨l1, l2, l3⟩ := innerPartial_lengths xSeg ySeg y m a
    rcases Nat.lt_or_ge x m with hxm | hxm
    · have hprev := ih (by omega) a ha x hxm j hj
      have hs := topoBody_index_skip xSeg ySeg y m (6 * (y * xSeg + x) + j)
        (innerPartial xSeg ySeg y m a) (by omega)
      exact hs.trans hprev
    · have hxe : x = m := by omega
      subst hxe
      have hqb := quadAddr_bound xSeg ySeg y x hy (by omega)
      have h6 : 3 * (xSeg * ySeg * 2) = 6 * (xSeg * ySeg) := by ring
      have hlen : 6 * (y * xSeg + x) + 5 < (innerPartial xSeg ySeg y x a).index.length := by
        rw [l3, ha]; omega
      exact topoBody_index_write xSeg ySeg y x (innerPartial xSeg ySeg y x a)
        (by omega) hy hlen j hj

theorem innerPartial_index_frame (xSeg ySeg y : ℕ) :
    ∀ m, ∀ a : TopoArrays, ∀ k,
      (k < 6 * (y * xSeg) ∨ 6 * (y * xSeg + m) ≤ k) →
      (innerPartial xSeg ySeg y m a).index[k]? = a.index[k]? := by
  intro m
  induction m with
  | zero => intro a k _; rfl
  | succ m ih =>
    intro a k hk
    rw [innerPartial_succ]
    have hs := topoBody_index_skip xSeg ySeg y m k (innerPartial xSeg ySeg y m a) (by omega)
    exact hs.trans (ih a k (by omega))

/-! Characterization of one full row. -/

theorem innerRow_index_via_inner (xSeg ySeg y : ℕ) (a : TopoArrays) :
    (innerRow xSeg ySeg y a).index = (innerPartial xSeg ySeg y xSeg a).index := by
  rw [innerRow, innerPartial_succ]
  exact topoBody_index_noWrite xSeg ySeg y xSeg (innerPartial xSeg ySeg y xSeg a) (by omega)

theorem innerRow_uv_entries (xSeg ySeg y : ℕ) (hy : y ≤ ySeg) (a : TopoArrays)
    (ha1 : a.uv.length = 2 * ((xSeg + 1) * (ySeg + 1)))
    (ha2 : a.uvNorm.length = 2 * ((xSeg + 1) * (ySeg + 1))) :
    ∀ x, x ≤ xSeg →
      (innerRow xSeg ySeg y a).uv[2 * (y * (xSeg + 1) + x)]? =
        some ((x : ℚ) / (xSeg : ℚ)) ∧
      (innerRow xSeg ySeg y a).uv[2 * (y * (xSeg + 1) + x) + 1]? =
        some (1 - (y : ℚ) / (ySeg : ℚ)) ∧
      (innerRow xSeg ySeg y a).uvNorm[2 * (y * (xSeg + 1) + x)]? =
        some ((x : ℚ) / (xSeg : ℚ) * 2 - 1) ∧
      (innerRow xSeg ySeg y a).uvNorm[2 * (y * (xSeg + 1) + x) + 1]? =
        some (1 - (y : ℚ) / (ySeg : ℚ) * 2) := by
  intro x hx
  exact innerPartial_uv_entries xSeg ySeg y hy (xSeg + 1) le_rfl a ha1 ha2 x (by omega)

theorem innerRow_uv_frame (xSeg ySeg y : ℕ) (a : TopoArrays) :
    ∀ k, (k < 2 * (y * (xSeg + 1)) ∨ 2 * ((y + 1) * (xSeg + 1)) ≤ k) →
      (innerRow xSeg ySeg y a).uv[k]? = a.uv[k]? ∧
      (innerRow xSeg ySeg y a).uvNorm[k]? = a.uvNorm[k]? := by
  intro k hk
  have hr : (y + 1) * (xSeg + 1) = y * (xSeg + 1) + (xSeg + 1) := by ring
  exact innerPartial_uv_frame xSeg ySeg y (xSeg + 1) a k (by omega)

theorem innerRow_index_entries (xSeg ySeg y : ℕ) (hy : y < ySeg) (a : TopoArrays)
    (ha : a.index.length = 3 * (xSeg * ySeg * 2)) :
    ∀ x, x < xSeg → ∀ j, j < 6 →
      (innerRow xSeg ySeg y a).index[6 * (y * xSeg + x) + j]? =
        some (indexVal xSeg (y * (xSeg + 1) + x) j) := by
  intro x hx j hj
  rw [innerRow_index_via_inner]
  exact innerPartial_index_entries xSeg ySeg y hy xSeg le_rfl a ha x hx j hj

theorem innerRow_index_frame (xSeg ySeg y : ℕ) (a : TopoArrays) :
    ∀ k, (k < 6 * (y * xSeg) ∨ 6 * ((y + 1) * xSeg) ≤ k) →
      (innerRow xSeg ySeg y a).index[k]? = a.index[k]? := by
  intro k hk
  rw [innerRow_index_via_inner]
  have hr : (y + 1) * xSeg = y * xSeg + xSeg := by ring
  exact innerPartial_index_frame xSeg ySeg y xSeg a k (by omega)

/-! Characterization of the full double loop. -/

theorem outerPartial_uv_entries (xSeg ySeg : ℕ) :
    ∀ n, n ≤ ySeg + 1 → ∀ y, y < n → ∀ x, x ≤ xSeg →
      (outerPartial xSeg ySeg n (topoInit xSeg ySeg)).uv[2 * (y * (xSeg + 1) + x)]? =
        some ((x : ℚ) / (xSeg : ℚ)) ∧
      (outerPartial xSeg ySeg n (topoInit xSeg ySeg)).uv[2 * (y * (xSeg + 1) + x) + 1]? =
        some (1 - (y : ℚ) / (ySeg : ℚ)) ∧
      (outerPartial xSeg ySeg n (topoInit xSeg ySeg)).uvNorm[2 * (y * (xSeg + 1) + x)]? =
        some ((x : ℚ) / (xSeg : ℚ) * 2 - 1) ∧
      (outerPartial xSeg ySeg n (topoInit xSeg ySeg)).uvNorm[2 * (y * (xSeg + 1) + x) + 1]? =
        some (1 - (y : ℚ) / (ySeg : ℚ) * 2) := by
  intro n
  induction n with
  | zero => intro _ y hy; exact absurd hy (Nat.not_lt_zero y)
  | succ n ih =>
    intro hn y hyn x hx
    rw [outerPartial_succ]
    obtain ⟨l1, l2, l3⟩ := outerPartial_lengths xSeg ySeg n (topoInit xSeg ySeg)
    have hb1 : (outerPartial xSeg ySeg n (topoInit xSeg ySeg)).uv.length =
        2 * ((xSeg + 1) * (ySeg + 1)) := by
      rw [l1]; simp [topoInit]
    have hb2 : (outerPartial xSeg ySeg n (topoInit xSeg ySeg)).uvNorm.length =
        2 * ((xSeg + 1) * (ySeg + 1)) := by
      rw [l2]; simp [topoInit]
    rcases Nat.lt_or_ge y n with hlt | hge
    · have hprev := ih (by omega) y hlt x hx
      have h1 : (y + 1) * (xSeg + 1) ≤ n * (xSeg + 1) := Nat.mul_le_mul_right _ (by omega)
      have h2 : (y + 1) * (xSeg + 1) = y * (xSeg + 1) + xSeg + 1 := by ring
      have hf0 := innerRow_uv_frame xSeg ySeg n (outerPartial xSeg ySeg n (topoInit xSeg ySeg))
        (2 * (y * (xSeg + 1) + x)) (Or.inl (by omega))
      have hf1 := innerRow_uv_frame xSeg ySeg n (outerPartial xSeg ySeg n (topoInit xSeg ySeg))
        (2 * (y * (xSeg + 1) + x) + 1) (Or.inl (by omega))
      exact ⟨hf0.1.trans hprev.1, hf1.1.trans hprev.2.1,
        hf0.2.trans hprev.2.2.1, hf1.2.trans hprev.2.2.2⟩
    · have hye : y = n := by omega
      subst hye
      exact innerRow_uv_entries xSeg ySeg y (by omega)
        (outerPartial xSeg ySeg y (topoInit xSeg ySeg)) hb1 hb2 x hx

theorem outerPartial_index_entries (xSeg ySeg : ℕ) :
    ∀ n, n ≤ ySeg + 1 → ∀ y, y < n → y < ySeg → ∀ x, x < xSeg → ∀ j, j < 6 →
      (outerPartial xSeg ySeg n (topoInit xSeg ySeg)).index[6 * (y * xSeg + x) + j]? =
        some (indexVal xSeg (y * (xSeg + 1) + x) j) := by
  intro n
  induction n with
  | zero => intro _ y hy; exact absurd hy (Nat.not_lt_zero y)
  | succ n ih =>
    intro hn y hyn hy x hx j hj
    rw [outerPartial_succ]
    obtain ⟨l1, l2, l3⟩ := outerPartial_lengths xSeg ySeg n (topoInit xSeg ySeg)
    have hb3 : (outerPartial xSeg ySeg n (topoInit xSeg ySeg)).index.length =
        3 * (xSeg * ySeg * 2) := by
      rw [l3]; simp [topoInit]
    rcases Nat.lt_or_ge y n with hlt | hge
    · have hprev := ih (by omega) y hlt hy x hx j hj
      have h1 : (y + 1) * xSeg ≤ n * xSeg := Nat.mul_le_mul_right _ (by omega)
      have h2 : (y + 1) * xSeg = y * xSeg + xSeg := by ring
      have hf := innerRow_index_frame xSeg ySeg n (outerPartial xSeg ySeg n (topoInit xSeg ySeg))
        (6 * (y * xSeg + x) + j) (Or.inl (by omega))
      exact hf.trans hprev
    · have hye : y = n := by omega
      subst hye
      exact innerRow_index_entries xSeg ySeg y hy
        (outerPartial xSeg ySeg y (topoInit xSeg ySeg)) hb3 x hx j hj

theorem topoArrays_uv_entry (xSeg ySeg x y : ℕ) (hx : x ≤ xSeg) (hy : y ≤ ySeg) :
    (topoArrays xSeg ySeg).uv[2 * (y * (xSeg + 1) + x)]? = some ((x : ℚ) / (xSeg : ℚ)) ∧
    (topoArrays xSeg ySeg).uv[2 * (y * (xSeg + 1) + x) + 1]? =
      some (1 - (y : ℚ) / (ySeg : ℚ)) ∧
    (topoArrays xSeg ySeg).uvNorm[2 * (y * (xSeg + 1) + x)]? =
      some ((x : ℚ) / (xSeg : ℚ) * 2 - 1) ∧
    (topoArrays xSeg ySeg).uvNorm[2 * (y * (xSeg + 1) + x) + 1]? =
      some (1 - (y : ℚ) / (ySeg : ℚ) * 2) :=
  outerPartial_uv_entries xSeg ySeg (ySeg + 1) le_rfl y (by omega) x hx

theorem topoArrays_index_entry (xSeg ySeg x y : ℕ) (hx : x < xSeg) (hy : y < ySeg) :
    ∀ j, j < 6 →
      (topoArrays xSeg ySeg).index[6 * (y * xSeg + x) + j]? =
        some (indexVal xSeg (y * (xSeg + 1) + x) j) := by
  intro j hj
  exact outerPartial_index_entries xSeg ySeg (ySeg + 1) le_rfl y (by omega) hy x hx j hj

/-- The 1×1 topology's array contents, entry by entry. -/
theorem topo11_values :
    (topoArrays 1 1).uv[0]? = some 0 ∧ (topoArrays 1 1).uv[1]? = some 1 ∧
    (topoArrays 1 1).uv[2]? = some 1 ∧ (topoArrays 1 1).uv[3]? = some 1 ∧
    (topoArrays 1 1).uv[4]? = some 0 ∧ (topoArrays 1 1).uv[5]? = some 0 ∧
    (topoArrays 1 1).uv[6]? = some 1 ∧ (topoArrays 1 1).uv[7]? = some 0 ∧
    (topoArrays 1 1).uvNorm[0]? = some (-1 : ℚ) ∧ (topoArrays 1 1).uvNorm[1]? = some 1 ∧
    (topoArrays 1 1).uvNorm[2]? = some 1 ∧ (topoArrays 1 1).uvNorm[3]? = some 1 ∧
    (topoArrays 1 1).uvNorm[4]? = some (-1 : ℚ) ∧ (topoArrays 1 1).uvNorm[5]? = some (-1 : ℚ) ∧
    (topoArrays 1 1).uvNorm[6]? = some 1 ∧ (topoArrays 1 1).uvNorm[7]? = some (-1 : ℚ) ∧
    (topoArrays 1 1).index[0]? = some 0 ∧ (topoArrays 1 1).index[1]? = some 2 ∧
    (topoArrays 1 1).index[2]? = some 1 ∧ (topoArrays 1 1).index[3]? = some 1 ∧
    (topoArrays 1 1).index[4]? = some 2 ∧ (topoArrays 1 1).index[5]? = some 3 := by
  have h00 := topoArrays_uv_entry 1 1 0 0 (by norm_num) (by norm_num)
  have h10 := topoArrays_uv_entry 1 1 1 0 (by norm_num) (by norm_num)
  have h01 := topoArrays_uv_entry 1 1 0 1 (by norm_num) (by norm_num)
  have h11 := topoArrays_uv_entry 1 1 1 1 (by norm_num) (by norm_num)
  have hio := topoArrays_index_entry 1 1 0 0 (by norm_num) (by norm_num)
  have i0 := hio 0 (by norm_num)
  have i1 := hio 1 (by norm_num)
  have i2 := hio 2 (by norm_num)
  have i3 := hio 3 (by norm_num)
  have i4 := hio 4 (by norm_num)
  have i5 := hio 5 (by norm_num)
  norm_num [indexVal] at h00 h10 h01 h11 i0 i1 i2 i3 i4 i5
  exact ⟨h00.1, h00.2.1, h10.1, h10.2.1, h01.1, h01.2.1, h11.1, h11.2.1,
    h00.2.2.1, h00.2.2.2, h10.2.2.1, h10.2.2.2, h01.2.2.1, h01.2.2.2,
    h11.2.2.1, h11.2.2.2, i0, i1, i2, i3, i4, i5⟩

/-- C1: for every pair of segment counts `xSegments, ySegments ≥ 1`, after
`PlaneGeometry.setTopology(xSegments, ySegments)` the vertex count equals
`(xSegments+1)*(ySegments+1)`, the triangle count equals
`xSegments*ySegments*2`, and every entry of the generated index buffer is a
valid vertex index strictly less than the vertex count. -/
theorem setTopology_counts_and_index_bounds (g : PlaneGeometry) (xSegments ySegments : ℕ)
    (hx1 : 1 ≤ xSegments) (hy1 : 1 ≤ ySegments) :
    (setTopology g xSegments ySegments).vertexCount = (xSegments + 1) * (ySegments + 1) ∧
    (setTopology g xSegments ySegments).quadCount = xSegments * ySegments * 2 ∧
    ∀ e ∈ (setTopology g xSegments ySegments).index,
      e < (setTopology g xSegments ySegments).vertexCount := by
  refine ⟨rfl, rfl, ?_⟩
  intro e he
  have hidx : (setTopology g xSegments ySegments).index =
      (topoArrays xSegments ySegments).index := rfl
  rw [hidx] at he
  obtain ⟨k, hk, hke⟩ := List.mem_iff_getElem.mp he
  have hlen := topoArrays_index_length xSegments ySegments
  have h6 : 3 * (xSegments * ySegments * 2) = 6 * (xSegments * ySegments) := by ring
  have hj6 : k % 6 < 6 := by omega
  have hq : k / 6 < xSegments * ySegments := by omega
  have hxq : k / 6 % xSegments < xSegments := Nat.mod_lt _ (by omega)
  have hqyx : k / 6 / xSegments * xSegments + k / 6 % xSegments = k / 6 := by
    calc k / 6 / xSegments * xSegments + k / 6 % xSegments
        = xSegments * (k / 6 / xSegments) + k / 6 % xSegments := by rw [Nat.mul_comm]
      _ = k / 6 := Nat.div_add_mod (k / 6) xSegments
  have hyq : k / 6 / xSegments < ySegments := by
    by_contra hc
    have h1 : ySegments * xSegments ≤ k / 6 / xSegments * xSegments :=
      Nat.mul_le_mul_right _ (by omega)
    have h2 : xSegments * ySegments = ySegments * xSegments := Nat.mul_comm ..
    omega
  have hc := topoArrays_index_entry xSegments ySegments (k / 6 % xSegments)
    (k / 6 / xSegments) hxq hyq (k % 6) hj6
  have hsome : (topoArrays xSegments ySegments).index[k]? = some e := by
    rw [List.getElem?_eq_getElem hk, hke]
  have hkeq : k = 6 * (k / 6 / xSegments * xSegments + k / 6 % xSegments) + k % 6 := by
    omega
  rw [← hkeq] at hc
  rw [hc] at hsome
  have he2 : e = indexVal xSegments
      (k / 6 / xSegments * (xSegments + 1) + k / 6 % xSegments) (k % 6) :=
    (Option.some.inj hsome).symm
  rw [he2]
  exact indexVal_lt_vertexCount xSegments ySegments (k / 6 / xSegments)
    (k / 6 % xSegments) (k % 6) hyq hxq

/-- Witness for C1 at segment counts 2 × 3. -/
theorem setTopology_counts_and_index_bounds_witness :
    1 ≤ 2 ∧ 1 ≤ 3 ∧
    ((setTopology planeGeometryBlank 2 3).vertexCount = (2 + 1) * (3 + 1) ∧
     (setTopology planeGeometryBlank 2 3).quadCount = 2 * 3 * 2 ∧
     ∀ e ∈ (setTopology planeGeometryBlank 2 3).index,
       e < (setTopology planeGeometryBlank 2 3).vertexCount) :=
  ⟨by norm_num, by norm_num,
    setTopology_counts_and_index_bounds planeGeometryBlank 2 3 (by norm_num) (by norm_num)⟩

/-- The largest value an interior cell writes stays below the vertex
count. -/
theorem triangleVal_bound (xSeg ySeg y x : ℕ) (hy : y < ySeg) (hx : x < xSeg) :
    y * (xSeg + 1) + x + 2 + xSeg < (xSeg + 1) * (ySeg + 1) := by
  have h1 : (y + 1) * (xSeg + 1) ≤ ySeg * (xSeg + 1) := Nat.mul_le_mul_right _ (by omega)
  have h2 : (y + 1) * (xSeg + 1) = y * (xSeg + 1) + xSeg + 1 := by ring
  have h3 : (xSeg + 1) * (ySeg + 1) = ySeg * (xSeg + 1) + xSeg + 1 := by ring
  omega

/-- Closed forms of `indexVal` at each offset. -/
theorem indexVal_at_0 (xSeg vi : ℕ) : indexVal xSeg vi 0 = vi % 65536 := rfl

theorem indexVal_at_1 (xSeg vi : ℕ) : indexVal xSeg vi 1 = (vi + 1 + xSeg) % 65536 := rfl

theorem indexVal_at_2 (xSeg vi : ℕ) : indexVal xSeg vi 2 = (vi + 1) % 65536 := rfl

theorem indexVal_at_3 (xSeg vi : ℕ) : indexVal xSeg vi 3 = (vi + 1) % 65536 := rfl

theorem indexVal_at_4 (xSeg vi : ℕ) : indexVal xSeg vi 4 = (vi + 1 + xSeg) % 65536 := rfl

theorem indexVal_at_5 (xSeg vi : ℕ) : indexVal xSeg vi 5 = (vi + 2 + xSeg) % 65536 := rfl

/-- C2 counterexample: the index buffer is a `Uint16Array`, so the stored
entry is the triangle formula reduced modulo `2 ^ 16`.  At segment counts
65535 × 1 the last interior cell has top-left vertex `v = 65534`, and the
third entry of its second triangle stores `(v + 2 + 65535) % 65536 = 65535`
rather than the claimed `v + 2 + xSegments = 131071`. -/
theorem setTopology_triangle_wrap_counterexample :
    (setTopology planeGeometryBlank 65535 1).index[6 * 65534 + 5]? = some 65535 ∧
    (setTopology planeGeometryBlank 65535 1).index[6 * 65534 + 5]? ≠
      some (65534 + 2 + 65535) := by
  have h := topoArrays_index_entry 65535 1 65534 0 (by norm_num) (by norm_num) 5 (by norm_num)
  rw [indexVal_at_5] at h
  rw [show (6 * (0 * 65535 + 65534) + 5 : ℕ) = 6 * 65534 + 5 from by norm_num] at h
  rw [show ((0 * (65535 + 1) + 65534 + 2 + 65535) % 65536 : ℕ) = 65535 from by norm_num] at h
  constructor
  · rw [setTopology_index_eq]
    exact h
  · rw [setTopology_index_eq, h]
    intro hc
    exact absurd (Option.some.inj hc) (by norm_num)

/-- C2 (amended): for every `xSegments, ySegments ≥ 1`, `setTopology`
fills, for each grid point `(x, y)` in row-major order, UV
`(x/xSegments, 1 - y/ySegments)` and normalized UV
`(2x/xSegments - 1, 1 - 2y/ySegments)`; for each interior grid cell with
top-left vertex `v` it emits the two triangles `(v, v+1+xSegments, v+1)`
and `(v+1, v+1+xSegments, v+2+xSegments)`, each stored entry reduced
modulo `2 ^ 16` by the `Uint16Array` backing store — the stored entries
equal the formulas exactly whenever the vertex count is at most `65536`.
In particular for a 1×1 topology the UVs at vertices 0..3 are
`(0,1),(1,1),(0,0),(1,0)`, the normalized UVs are
`(-1,1),(1,1),(-1,-1),(1,-1)`, and the triangles are `(0,2,1)` and
`(1,2,3)`. -/
theorem setTopology_fill_pattern (g : PlaneGeometry) (xSegments ySegments : ℕ)
    (hx1 : 1 ≤ xSegments) (hy1 : 1 ≤ ySegments) :
    (∀ y, y ≤ ySegments → ∀ x, x ≤ xSegments →
      (setTopology g xSegments ySegments).uv[2 * (y * (xSegments + 1) + x)]? =
        some ((x : ℚ) / (xSegments : ℚ)) ∧
      (setTopology g xSegments ySegments).uv[2 * (y * (xSegments + 1) + x) + 1]? =
        some (1 - (y : ℚ) / (ySegments : ℚ)) ∧
      (setTopology g xSegments ySegments).uvNorm[2 * (y * (xSegments + 1) + x)]? =
        some (2 * (x : ℚ) / (xSegments : ℚ) - 1) ∧
      (setTopology g xSegments ySegments).uvNorm[2 * (y * (xSegments + 1) + x) + 1]? =
        some (1 - 2 * (y : ℚ) / (ySegments : ℚ))) ∧
    (∀ y, y < ySegments → ∀ x, x < xSegments →
      ((setTopology g xSegments ySegments).index[6 * (y * xSegments + x)]? =
        some ((y * (xSegments + 1) + x) % 65536) ∧
       (setTopology g xSegments ySegments).index[6 * (y * xSegments + x) + 1]? =
        some ((y * (xSegments + 1) + x + 1 + xSegments) % 65536) ∧
       (setTopology g xSegments ySegments).index[6 * (y * xSegments + x) + 2]? =
        some ((y * (xSegments + 1) + x + 1) % 65536) ∧
       (setTopology g xSegments ySegments).index[6 * (y * xSegments + x) + 3]? =
        some ((y * (xSegments + 1) + x + 1) % 65536) ∧
       (setTopology g xSegments ySegments).index[6 * (y * xSegments + x) + 4]? =
        some ((y * (xSegments + 1) + x + 1 + xSegments) % 65536) ∧
       (setTopology g xSegments ySegments).index[6 * (y * xSegments + x) + 5]? =
        some ((y * (xSegments + 1) + x + 2 + xSegments) % 65536)) ∧
      ((xSegments + 1) * (ySegments + 1) ≤ 65536 →
       (setTopology g xSegments ySegments).index[6 * (y * xSegments + x)]? =
        some (y * (xSegments + 1) + x) ∧
       (setTopology g xSegments ySegments).index[6 * (y * xSegments + x) + 1]? =
        some (y * (xSegments + 1) + x + 1 + xSegments) ∧
       (setTopology g xSegments ySegments).index[6 * (y * xSegments + x) + 2]? =
        some (y * (xSegments + 1) + x + 1) ∧
       (setTopology g xSegments ySegments).index[6 * (y * xSegments + x) + 3]? =
        some (y * (xSegments + 1) + x + 1) ∧
       (setTopology g xSegments ySegments).index[6 * (y * xSegments + x) + 4]? =
        some (y * (xSegments + 1) + x + 1 + xSegments) ∧
       (setTopology g xSegments ySegments).index[6 * (y * xSegments + x) + 5]? =
        some (y * (xSegments + 1) + x + 2 + xSegments))) ∧
    ((setTopology g 1 1).uv[0]? = some 0 ∧ (setTopology g 1 1).uv[1]? = some 1 ∧
     (setTopology g 1 1).uv[2]? = some 1 ∧ (setTopology g 1 1).uv[3]? = some 1 ∧
     (setTopology g 1 1).uv[4]? = some 0 ∧ (setTopology g 1 1).uv[5]? = some 0 ∧
     (setTopology g 1 1).uv[6]? = some 1 ∧ (setTopology g 1 1).uv[7]? = some 0 ∧
     (setTopology g 1 1).uvNorm[0]? = some (-1 : ℚ) ∧
     (setTopology g 1 1).uvNorm[1]? = some 1 ∧
     (setTopology g 1 1).uvNorm[2]? = some 1 ∧
     (setTopology g 1 1).uvNorm[3]? = some 1 ∧
     (setTopology g 1 1).uvNorm[4]? = some (-1 : ℚ) ∧
     (setTopology g 1 1).uvNorm[5]? = some (-1 : ℚ) ∧
     (setTopology g 1 1).uvNorm[6]? = some 1 ∧
     (setTopology g 1 1).uvNorm[7]? = some (-1 : ℚ) ∧
     (setTopology g 1 1).index[0]? = some 0 ∧ (setTopology g 1 1).index[1]? = some 2 ∧
     (setTopology g 1 1).index[2]? = some 1 ∧ (setTopology g 1 1).index[3]? = some 1 ∧
     (setTopology g 1 1).index[4]? = some 2 ∧ (setTopology g 1 1).index[5]? = some 3) := by
  refine ⟨?_, ?_, topo11_values⟩
  · intro y hy x hx
    have h := topoArrays_uv_entry xSegments ySegments x y hx hy
    have e1 : (x : ℚ) / (xSegments : ℚ) * 2 - 1 = 2 * (x : ℚ) / (xSegments : ℚ) - 1 := by
      ring
    have e2 : 1 - (y : ℚ) / (ySegments : ℚ) * 2 = 1 - 2 * (y : ℚ) / (ySegments : ℚ) := by
      ring
    rw [e1, e2] at h
    exact h
  · intro y hy x hx
    have h0 := topoArrays_index_entry xSegments ySegments x y hx hy 0 (by norm_num)
    have h1 := topoArrays_index_entry xSegments ySegments x y hx hy 1 (by norm_num)
    have h2 := topoArrays_index_entry xSegments ySegments x y hx hy 2 (by norm_num)
    have h3 := topoArrays_index_entry xSegments ySegments x y hx hy 3 (by norm_num)
    have h4 := topoArrays_index_entry xSegments ySegments x y hx hy 4 (by norm_num)
    have h5 := topoArrays_index_entry xSegments ySegments x y hx hy 5 (by norm_num)
    rw [Nat.add_zero, indexVal_at_0] at h0
    rw [indexVal_at_1] at h1
    rw [indexVal_at_2] at h2
    rw [indexVal_at_3] at h3
    rw [indexVal_at_4] at h4
    rw [indexVal_at_5] at h5
    have hs := setTopology_index_eq g xSegments ySegments
    refine ⟨⟨h0, h1, h2, h3, h4, h5⟩, ?_⟩
    intro hV
    have hb := triangleVal_bound xSegments ySegments y x hy hx
    refine ⟨?_, ?_, ?_, ?_, ?_, ?_⟩
    · rw [hs, h0, Nat.mod_eq_of_lt (by omega)]
    · rw [hs, h1, Nat.mod_eq_of_lt (by omega)]
    · rw [hs, h2, Nat.mod_eq_of_lt (by omega)]
    · rw [hs, h3, Nat.mod_eq_of_lt (by omega)]
    · rw [hs, h4, Nat.mod_eq_of_lt (by omega)]
    · rw [hs, h5, Nat.mod_eq_of_lt (by omega)]

/-- Witness for C2 at segment counts 2 × 2 and grid point (1, 1). -/
theorem setTopology_fill_pattern_witness :
    1 ≤ 2 ∧ 1 ≤ 2 ∧ 1 ≤ 2 ∧
    ((setTopology planeGeometryBlank 2 2).uv[2 * (1 * (2 + 1) + 1)]? =
      some ((1 : ℚ) / (2 : ℚ)) ∧
     (setTopology planeGeometryBlank 2 2).index[6 * (1 * 2 + 1)]? =
      some ((1 * (2 + 1) + 1) % 65536)) := by
  have h := setTopology_fill_pattern planeGeometryBlank 2 2 (by norm_num) (by norm_num)
  exact ⟨by norm_num, by norm_num, by norm_num,
    (h.1 1 (by norm_num) 1 (by norm_num)).1,
    ((h.2.1 1 (by norm_num) 1 (by norm_num)).1).1⟩

/-- C5: `setSize` and `setTopology` are mutually frame-preserving:
`setSize` alone (any width, height, orientation) leaves the UV,
normalized-UV and index buffers unchanged, and `setTopology` alone leaves
the position buffer's prior values unchanged; `setSize` starts from a
fresh position array only when the existing one is absent or its length
differs from `3 * vertexCount`, and otherwise reuses the existing
array. -/
theorem planeGeometry_frame (g : PlaneGeometry) (w h : ℚ) (o : String) (xs ys : ℕ) :
    (setSize g w h o).uv = g.uv ∧
    (setSize g w h o).uvNorm = g.uvNorm ∧
    (setSize g w h o).index = g.index ∧
    (setTopology g xs ys).position = g.position ∧
    (g.position = none → setSizeBase g = List.replicate (3 * g.vertexCount) 0) ∧
    (∀ p, g.position = some p → p.length = 3 * g.vertexCount → setSizeBase g = p) ∧
    (∀ p, g.position = some p → p.length ≠ 3 * g.vertexCount →
      setSizeBase g = List.replicate (3 * g.vertexCount) 0) := by
  refine ⟨rfl, rfl, rfl, rfl, ?_, ?_, ?_⟩
  · intro hp
    simp [setSizeBase, hp]
  · intro p hp hl
    simp [setSizeBase, hp, hl]
  · intro p hp hl
    simp [setSizeBase, hp, hl]

/-- Witness for C5 on a concrete initialized geometry whose position
array is present with the matching length. -/
theorem planeGeometry_frame_witness :
    (setSize planeGeometrySample 7 9 "xy").uv = planeGeometrySample.uv ∧
    (setTopology planeGeometrySample 2 2).position = planeGeometrySample.position ∧
    planeGeometrySample.position = some (List.replicate 12 0) ∧
    (List.replicate 12 (0 : ℚ)).length = 3 * planeGeometrySample.vertexCount ∧
    setSizeBase planeGeometrySample = List.replicate 12 0 := by
  have h := planeGeometry_frame planeGeometrySample 7 9 "xy" 2 2
  exact ⟨h.1, h.2.2.2.1, rfl, by simp [planeGeometrySample],
    h.2.2.2.2.2.1 (List.replicate 12 0) rfl (by simp [planeGeometrySample])⟩

/-- C6 counterexample: `MorphGradient.resize` never reads the viewport
height — it uses the effect's own `height` field (initial value 600).
With density `[0.01, 0.01]` and viewport 400×300 the recomputed segment
counts are `4 × ceil(600*0.01) = 4 × 6`, and the rebuilt index buffer has
`4*6*2*3 = 144` entries, not the claimed `4 × 3` and `72`. -/
theorem morphResize_viewport_height_counterexample :
    (morphResize 400 300 morphSample).xSegCount = 4 ∧
    (morphResize 400 300 morphSample).ySegCount = 6 ∧
    (morphResize 400 300 morphSample).geometry.index.length = 144 ∧
    (morphResize 400 300 morphSample).ySegCount ≠ 3 ∧
    (morphResize 400 300 morphSample).geometry.index.length ≠ 72 := by
  have hx : (morphResize 400 300 morphSample).xSegCount = 4 := by
    show (⌈(400 : ℚ) * morphSample.density.1⌉₊ : ℕ) = 4
    norm_num [morphSample]
  have hy : (morphResize 400 300 morphSample).ySegCount = 6 := by
    show (⌈morphSample.height * morphSample.density.2⌉₊ : ℕ) = 6
    norm_num [morphSample]
  have hg : (morphResize 400 300 morphSample).geometry.index.length = 144 := by
    show (setSize (setTopology morphSample.geometry
      (⌈(400 : ℚ) * morphSample.density.1⌉₊) (⌈morphSample.height * morphSample.density.2⌉₊))
      400 morphSample.height "xz").index.length = 144
    rw [setSize_index_eq, setTopology_index_eq, topoArrays_index_length]
    have h4 : (⌈(400 : ℚ) * morphSample.density.1⌉₊ : ℕ) = 4 := by norm_num [morphSample]
    have h6 : (⌈morphSample.height * morphSample.density.2⌉₊ : ℕ) = 6 := by
      norm_num [morphSample]
    rw [h4, h6]
  exact ⟨hx, hy, hg, by rw [hy]; norm_num, by rw [hg]; norm_num⟩

/-- C6 (amended): for a `MorphGradient` with density `[0.01, 0.01]` whose
`height` field holds its initial value 600, a resize with viewport width
400 (any viewport height — the code never reads it) recomputes the
segment counts to `ceil(400*0.01) = 4` by `ceil(600*0.01) = 6` and
rebuilds the topology so that the index buffer afterwards has exactly
`4*6*2*3 = 144` entries. -/
theorem morphResize_density_recompute (s : MorphGradient) (hh : s.height = 600)
    (hd : s.density = (1/100, 1/100)) (innerHeight : ℚ) :
    (morphResize 400 innerHeight s).xSegCount = 4 ∧
    (morphResize 400 innerHeight s).ySegCount = 6 ∧
    (morphResize 400 innerHeight s).geometry.index.length = 144 := by
  have hd1 : s.density.1 = 1/100 := by rw [hd]
  have hd2 : s.density.2 = 1/100 := by rw [hd]
  have hx : (morphResize 400 innerHeight s).xSegCount = 4 := by
    show (⌈(400 : ℚ) * s.density.1⌉₊ : ℕ) = 4
    rw [hd1]
    norm_num
  have hy : (morphResize 400 innerHeight s).ySegCount = 6 := by
    show (⌈s.height * s.density.2⌉₊ : ℕ) = 6
    rw [hd2, hh]
    norm_num
  refine ⟨hx, hy, ?_⟩
  show (setSize (setTopology s.geometry
    (⌈(400 : ℚ) * s.density.1⌉₊) (⌈s.height * s.density.2⌉₊))
    400 s.height "xz").index.length = 144
  rw [setSize_index_eq, setTopology_index_eq, topoArrays_index_length]
  have h4 : (⌈(400 : ℚ) * s.density.1⌉₊ : ℕ) = 4 := by rw [hd1]; norm_num
  have h6 : (⌈s.height * s.density.2⌉₊ : ℕ) = 6 := by rw [hd2, hh]; norm_num
  rw [h4, h6]

/-- Witness for C6 (amended) at the concrete sample state. -/
theorem morphResize_density_recompute_witness :
    morphSample.height = 600 ∧ morphSample.density = (1/100, 1/100) ∧
    ((morphResize 400 300 morphSample).xSegCount = 4 ∧
     (morphResize 400 300 morphSample).ySegCount = 6 ∧
     (morphResize 400 300 morphSample).geometry.index.length = 144) :=
  ⟨rfl, rfl, morphResize_density_recompute morphSample rfl rfl 300⟩

/-! The animation scheduler model. -/

theorem runEvents_cons (s : AnimState) (e : AnimEvent) (es : List AnimEvent) :
    runEvents s (e :: es) = runEvents (animStep s e) es := rfl

theorem anim_pending_le (s : AnimState) (es : List AnimEvent) :
    (runEvents s es).pending ≤ s.pending + countPlays es := by
  induction es generalizing s with
  | nil => simp [runEvents, countPlays]
  | cons e es ih =>
    rw [runEvents_cons]
    have h := ih (animStep s e)
    cases e with
    | play => simp only [countPlays, animStep] at h ⊢; omega
    | pause => simp only [countPlays, animStep] at h ⊢; omega
    | frame =>
      cases hsp : s.playing
      · simp only [animStep, hsp, Bool.false_eq_true, if_false, countPlays] at h ⊢
        omega
      · simp only [animStep, hsp, if_true, countPlays] at h ⊢
        omega

theorem anim_renders_le (s : AnimState) (es : List AnimEvent) :
    (runEvents s es).renders ≤ s.renders + countFrames es * (s.pending + countPlays es) := by
  induction es generalizing s with
  | nil => simp [runEvents, countFrames]
  | cons e es ih =>
    rw [runEvents_cons]
    have h := ih (animStep s e)
    cases e with
    | play =>
      simp only [animStep, countPlays, countFrames] at h ⊢
      rw [show s.pending + (countPlays es + 1) = s.pending + 1 + countPlays es from by omega]
      exact h
    | pause =>
      simp only [animStep, countPlays, countFrames] at h ⊢
      exact h
    | frame =>
      cases hsp : s.playing
      · simp only [animStep, hsp, Bool.false_eq_true, if_false, countPlays, countFrames] at h ⊢
        have e1 : (countFrames es + 1) * (s.pending + countPlays es) =
            countFrames es * (s.pending + countPlays es) + (s.pending + countPlays es) := by
          ring
        have e2 : countFrames es * (0 + countPlays es) = countFrames es * countPlays es := by
          ring
        have e3 : countFrames es * (s.pending + countPlays es) =
            countFrames es * s.pending + countFrames es * countPlays es := by
          ring
        omega
      · simp only [animStep, hsp, if_true, countPlays, countFrames] at h ⊢
        have e1 : (countFrames es + 1) * (s.pending + countPlays es) =
            countFrames es * (s.pending + countPlays es) + (s.pending + countPlays es) := by
          ring
        omega

/-- C3 counterexample: from the idle scheduler, `play()` twice leaves two
self-rescheduling chains pending, and one simulated frame then performs
two renders instead of one — calling `play()` while already playing does
schedule an additional chain. -/
theorem play_double_schedule_counterexample :
    (runEvents animIdle [AnimEvent.play, AnimEvent.play]).pending = 2 ∧
    ¬((runEvents animIdle [AnimEvent.play, AnimEvent.play]).pending ≤ 1) ∧
    (runEvents animIdle [AnimEvent.play, AnimEvent.play, AnimEvent.frame]).renders = 2 ∧
    (runEvents animIdle [AnimEvent.play, AnimEvent.frame]).renders = 1 := by
  refine ⟨rfl, by decide, rfl, rfl⟩

/-- C3 (amended): `play()` always schedules one additional animation-frame
callback, even when the effect is already playing, so the number of active
chains equals the number of pending callbacks and grows by one per
`play()` call.  However a simulated frame never increases the number of
pending callbacks (each fired callback reschedules at most itself), so
after any interleaving of `play()`, `pause()` and frames the pending count
is bounded by the initial count plus the number of `play()` calls, and the
total number of `render()` calls grows at most linearly with the number of
simulated frames — `frames × (initial pending + play calls)` — never
exponentially. -/
theorem animation_loop_linear (s : AnimState) (es : List AnimEvent) :
    (animStep s AnimEvent.play).pending = s.pending + 1 ∧
    (animStep s AnimEvent.frame).pending ≤ s.pending ∧
    (runEvents s es).pending ≤ s.pending + countPlays es ∧
    (runEvents s es).renders ≤ s.renders + countFrames es * (s.pending + countPlays es) := by
  refine ⟨rfl, ?_, anim_pending_le s es, anim_renders_le s es⟩
  cases hsp : s.playing <;> simp [animStep, hsp]

/-! The uniform-binding walk. -/

mutual

theorem attachUniforms_eq_leafBindings (resolve : String → Option ℕ) (name : String)
    (u : GlUniform) :
    attachUniforms resolve name u =
      (leafBindings name u).map (fun b => (b.1, resolve b.2)) := by
  match u with
  | .base t ex => simp [attachUniforms, leafBindings]
  | .arr ex es =>
    simp only [attachUniforms, leafBindings]
    exact attachUniformsArr_eq_leaves resolve name 0 es
  | .strct ex fs =>
    simp only [attachUniforms, leafBindings]
    exact attachUniformsFields_eq_leaves resolve name fs

theorem attachUniformsArr_eq_leaves (resolve : String → Option ℕ) (name : String)
    (i : ℕ) (es : List GlUniform) :
    attachUniformsArr resolve name i es =
      (leafBindingsArr name i es).map (fun b => (b.1, resolve b.2)) := by
  match es with
  | [] => simp [attachUniformsArr, leafBindingsArr]
  | e :: rest =>
    simp only [attachUniformsArr, leafBindingsArr, List.map_append]
    rw [attachUniforms_eq_leafBindings resolve (name ++ "[" ++ toString i ++ "]") e,
      attachUniformsArr_eq_leaves resolve name (i + 1) rest]

theorem attachUniformsFields_eq_leaves (resolve : String → Option ℕ) (name : String)
    (fs : List (String × GlUniform)) :
    attachUniformsFields resolve name fs =
      (leafBindingsFields name fs).map (fun b => (b.1, resolve b.2)) := by
  match fs with
  | [] => simp [attachUniformsFields, leafBindingsFields]
  | (f, e) :: rest =>
    simp only [attachUniformsFields, leafBindingsFields, List.map_append]
    rw [attachUniforms_eq_leafBindings resolve (name ++ "." ++ f) e,
      attachUniformsFields_eq_leaves resolve name rest]

end

mutual

theorem leafBindings_isLeaf (name : String) (u : GlUniform) :
    ∀ b ∈ leafBindings name u, isLeafUniform b.1 = true := by
  match u with
  | .base t ex =>
    intro b hb
    simp only [leafBindings, List.mem_singleton] at hb
    rw [hb]
    rfl
  | .arr ex es =>
    intro b hb
    simp only [leafBindings] at hb
    exact leafBindingsArr_isLeaf name 0 es b hb
  | .strct ex fs =>
    intro b hb
    simp only [leafBindings] at hb
    exact leafBindingsFields_isLeaf name fs b hb

theorem leafBindingsArr_isLeaf (name : String) (i : ℕ) (es : List GlUniform) :
    ∀ b ∈ leafBindingsArr name i es, isLeafUniform b.1 = true := by
  match es with
  | [] => intro b hb; simp [leafBindingsArr] at hb
  | e :: rest =>
    intro b hb
    simp only [leafBindingsArr, List.mem_append] at hb
    rcases hb with hb | hb
    · exact leafBindings_isLeaf (name ++ "[" ++ toString i ++ "]") e b hb
    · exact leafBindingsArr_isLeaf name (i + 1) rest b hb

theorem leafBindingsFields_isLeaf (name : String) (fs : List (String × GlUniform)) :
    ∀ b ∈ leafBindingsFields name fs, isLeafUniform b.1 = true := by
  match fs with
  | [] => intro b hb; simp [leafBindingsFields] at hb
  | (f, e) :: rest =>
    intro b hb
    simp only [leafBindingsFields, List.mem_append] at hb
    rcases hb with hb | hb
    · exact leafBindings_isLeaf (name ++ "." ++ f) e b hb
    · exact leafBindingsFields_isLeaf name rest b hb

end

/-- C4 counterexample: a location that fails to resolve is NOT dropped —
the walk still appends a (uniform, location) pair, with the null (`none`)
location stored in it. -/
theorem attachUniforms_unresolved_location_appended :
    attachUniforms (fun _ => none) "u_x" (GlUniform.base "float" none) =
      [(GlUniform.base "float" none, none)] ∧
    (attachUniforms (fun _ => none) "u_x" (GlUniform.base "float" none)).length ≠ 0 := by
  constructor
  · rfl
  · intro hc
    simp [attachUniforms] at hc

/-- C4 (amended): during Material construction the recursive
uniform-binding walk appends one (uniform, location) pair for every leaf
uniform, storing whatever the location resolver returned — a location
that fails to resolve is kept as a null location in the pair, not
dropped, and causes no error (the upload is later skipped by the
`Uniform.update` guard); array and struct uniforms are always expanded
into indexed (`base[i]`) and dotted (`base.field`) leaf names, so they
never appear directly in the bindings list. -/
theorem attachUniforms_spec (resolve : String → Option ℕ) (name : String) (u : GlUniform) :
    attachUniforms resolve name u =
      (leafBindings name u).map (fun b => (b.1, resolve b.2)) ∧
    (attachUniforms resolve name u).length = (leafBindings name u).length ∧
    (∀ b ∈ attachUniforms resolve name u, isLeafUniform b.1 = true) ∧
    uniformUpdateFires true none true = false := by
  have he := attachUniforms_eq_leafBindings resolve name u
  refine ⟨he, by rw [he, List.length_map], ?_, rfl⟩
  intro b hb
  rw [he] at hb
  obtain ⟨c, hc, hcb⟩ := List.mem_map.mp hb
  have hleaf := leafBindings_isLeaf name u c hc
  rw [← hcb]
  exact hleaf

/-! Substring containment. -/

theorem strContains_self (a : String) : strContains a a :=
  ⟨[], [], by simp⟩

theorem strContains_appendL (a b t : String) (h : strContains a t) :
    strContains (a ++ b) t := by
  obtain ⟨l, r, hl⟩ := h
  refine ⟨l, r ++ b.data, ?_⟩
  rw [String.data_append, hl]
  simp [List.append_assoc]

theorem strContains_appendR (a b t : String) (h : strContains b t) :
    strContains (a ++ b) t := by
  obtain ⟨l, r, hl⟩ := h
  refine ⟨a.data ++ l, r, ?_⟩
  rw [String.data_append, hl]
  simp [List.append_assoc]

/-- C7: for every name and every stage the uniform is not excluded from,
a `Uniform` of type `array` whose value is a sequence of two float-typed
`Uniform` elements produces a GLSL declaration string containing both
`uniform float <name>[2];` and `const int <name>_length = 2;`. -/
theorem uniform_array_declaration (name ty : String) (ex e0 e1 : Option String)
    (hx : ex ≠ some ty) (h0 : e0 ≠ some ty) (h1 : e1 ≠ some ty) :
    ∃ d : String,
      getDeclaration (GlUniform.arr ex [GlUniform.base "float" e0, GlUniform.base "float" e1])
        name ty 0 = some d ∧
      strContains d ("uniform float " ++ name ++ "[2];") ∧
      strContains d ("const int " ++ name ++ "_length = 2;") := by
  have houter : getDeclaration
      (GlUniform.arr ex [GlUniform.base "float" e0, GlUniform.base "float" e1]) name ty 0 =
      some (("uniform " ++ "float" ++ " " ++ name ++ glslSuffix 2 ++ ";") ++
        "\nconst int " ++ name ++ "_length = " ++ toString 2 ++ ";") := by
    simp only [getDeclaration, if_neg hx, if_neg h0, List.length_cons, List.length_nil,
      Nat.reduceAdd]
  refine ⟨_, houter, ?_, ?_⟩
  · have hpart : ("uniform " ++ "float" ++ " " ++ name ++ glslSuffix 2 ++ ";") =
        ("uniform float " ++ name ++ "[2];") := by
      apply String.ext
      simp only [String.data_append, List.append_assoc]
      rfl
    apply strContains_appendL
    apply strContains_appendL
    apply strContains_appendL
    apply strContains_appendL
    apply strContains_appendL
    rw [hpart]
    exact strContains_self _
  · refine ⟨("uniform " ++ "float" ++ " " ++ name ++ glslSuffix 2 ++ ";").data ++
      "\n".data, [], ?_⟩
    simp only [String.data_append, List.append_assoc, List.append_nil]
    rfl

/-- Witness for C7 at name `u_test` and the fragment stage, with no
exclusions. -/
theorem uniform_array_declaration_witness :
    (none : Option String) ≠ some "fragment" ∧
    ∃ d : String,
      getDeclaration
        (GlUniform.arr none [GlUniform.base "float" none, GlUniform.base "float" none])
        "u_test" "fragment" 0 = some d ∧
      strContains d ("uniform float " ++ "u_test" ++ "[2];") ∧
      strContains d ("const int " ++ "u_test" ++ "_length = 2;") :=
  ⟨by simp, uniform_array_declaration "u_test" "fragment" none none none
    (by simp) (by simp) (by simp)⟩

/-- C8: for every hex color string whose digit part after removing the
first `#` has a length other than 6 or 8 — including the 3-digit `#RGB`
shorthand — `hexToVec4` returns `[0, 0, 0, 1]`; passing such a string to
`setColor1`/`setColor2`/`setColor3` (when the uniforms exist) or to the
constructor's color options followed by `initMaterial` therefore sets the
corresponding color uniform to opaque black. -/
theorem hexToVec4_fallback (hex : List Char)
    (h6 : (replaceFirstHash hex).length ≠ 6) (h8 : (replaceFirstHash hex).length ≠ 8) :
    hexToVec4 hex = (some 0, some 0, some 0, some 1) ∧
    (∀ s u, s.uniforms = some u →
      (setColor1 hex s).uniforms =
        some { u with u_color1 := (some 0, some 0, some 0, some 1) } ∧
      (setColor2 hex s).uniforms =
        some { u with u_color2 := (some 0, some 0, some 0, some 1) } ∧
      (setColor3 hex s).uniforms =
        some { u with u_color3 := (some 0, some 0, some 0, some 1) }) ∧
    (∀ s : BalatroGradient,
      (balatroInitMaterial (balatroApplyColorOptions (some hex) none none s)).uniforms =
        some ⟨(some 0, some 0, some 0, some 1), hexToVec4 s.color2, hexToVec4 s.color3⟩) := by
  have hv : hexToVec4 hex = (some 0, some 0, some 0, some 1) := by
    unfold hexToVec4
    rw [if_neg h6, if_neg h8]
  refine ⟨hv, ?_, ?_⟩
  · intro s u hu
    refine ⟨?_, ?_, ?_⟩ <;> simp [setColor1, setColor2, setColor3, hu, hv]
  · intro s
    simp [balatroInitMaterial, balatroApplyColorOptions, hv]

/-- Witness for C8 at the 3-digit shorthand `#abc`. -/
theorem hexToVec4_fallback_witness :
    (replaceFirstHash "#abc".data).length ≠ 6 ∧
    (replaceFirstHash "#abc".data).length ≠ 8 ∧
    hexToVec4 "#abc".data = (some 0, some 0, some 0, some 1) := by
  have h6 : (replaceFirstHash "#abc".data).length ≠ 6 := by decide
  have h8 : (replaceFirstHash "#abc".data).length ≠ 8 := by decide
  exact ⟨h6, h8, (hexToVec4_fallback "#abc".data h6 h8).1⟩

/-- C9: `MorphGradient.updateFrequency(delta)` only adds `delta` to the
`freqX`/`freqY` configuration fields and changes no uniform value; the
`u_global.noiseFreq` uniform captured `[freqX, freqY]` by value when the
material was initialized, so after initialization `updateFrequency` has no
effect on any subsequent draw. -/
theorem updateFrequency_no_uniform_effect (s : MorphGradient) (d : ℚ) :
    (updateFrequency d s).freqX = s.freqX + d ∧
    (updateFrequency d s).freqY = s.freqY + d ∧
    (updateFrequency d s).uniforms = s.uniforms ∧
    (updateFrequency d s).activeColors = s.activeColors ∧
    (updateFrequency d s).geometry = s.geometry ∧
    (morphInitMaterial s).uniforms.u_global_noiseFreq = [s.freqX, s.freqY] ∧
    (updateFrequency d (morphInitMaterial s)).uniforms.u_global_noiseFreq =
      [s.freqX, s.freqY] :=
  ⟨rfl, rfl, rfl, rfl, rfl, rfl, rfl⟩

/-- A list is unchanged by writing back the value it already holds. -/
theorem set_getElem?_self {α : Type} (l : List α) (i : ℕ) (v : α)
    (h : l[i]? = some v) : l.set i v = l := by
  induction l generalizing i with
  | nil => rfl
  | cons a l ih =>
    cases i with
    | zero =>
      simp only [List.getElem?_cons_zero, Option.some.injEq] at h
      rw [h]
      rfl
    | succ i =>
      simp only [List.getElem?_cons_succ] at h
      simp only [List.set_cons_succ]
      rw [ih i h]

/-- Unfolding of `toggleColor` when the indexed entry exists. -/
theorem toggleColor_activeColors_of_getElem? (s : MorphGradient) (i w : ℕ)
    (h : s.activeColors[i]? = some w) :
    (toggleColor i s).activeColors = s.activeColors.set i (if w = 0 then 1 else 0) := by
  simp [toggleColor, h]

/-- C10: `MorphGradient.toggleColor` is an involution preserving the 0/1
invariant: for an index whose entry is 0 or 1, one call flips that entry
to the other value (leaving all other entries unchanged), two consecutive
calls restore `activeColors` exactly, and the `u_active_colors` uniform —
which aliases the very array object — immediately shows the flip without
any setter call. -/
theorem toggleColor_involution (s : MorphGradient) (i : ℕ) (v : ℕ)
    (hv : s.activeColors[i]? = some v) (h01 : v = 0 ∨ v = 1) :
    (toggleColor i s).activeColors[i]? = some (if v = 0 then 1 else 0) ∧
    (∀ j, j ≠ i → (toggleColor i s).activeColors[j]? = s.activeColors[j]?) ∧
    (toggleColor i (toggleColor i s)).activeColors = s.activeColors ∧
    morphActiveColorsUniform (toggleColor i s) = (toggleColor i s).activeColors ∧
    (toggleColor i s).uniforms = s.uniforms := by
  have hi : i < s.activeColors.length := by
    by_contra hc
    rw [List.getElem?_eq_none (by omega)] at hv
    exact Option.noConfusion hv
  have ht1 := toggleColor_activeColors_of_getElem? s i v hv
  have hflip : (toggleColor i s).activeColors[i]? = some (if v = 0 then 1 else 0) := by
    rw [ht1]
    exact List.getElem?_set_eq_of_lt _ hi
  refine ⟨hflip, ?_, ?_, rfl, rfl⟩
  · intro j hj
    rw [ht1]
    exact List.getElem?_set_ne (Ne.symm hj)
  · have ht2 := toggleColor_activeColors_of_getElem? (toggleColor i s) i
      (if v = 0 then 1 else 0) hflip
    rw [ht2, ht1, List.set_set]
    have hw : (if (if v = 0 then 1 else 0) = 0 then 1 else 0) = v := by
      rcases h01 with h | h <;> subst h <;> norm_num
    rw [hw]
    exact set_getElem?_self s.activeColors i v hv

/-- Witness for C10: toggling color 2 of the sample effect twice restores
its active-colors array. -/
theorem toggleColor_involution_witness :
    morphSample.activeColors[2]? = some 1 ∧ ((1 : ℕ) = 0 ∨ (1 : ℕ) = 1) ∧
    (toggleColor 2 morphSample).activeColors[2]? = some (if (1 : ℕ) = 0 then 1 else 0) ∧
    (toggleColor 2 (toggleColor 2 morphSample)).activeColors = morphSample.activeColors := by
  have h := toggleColor_involution morphSample 2 1 (by decide) (Or.inr rfl)
  exact ⟨by decide, Or.inr rfl, h.1, h.2.2.1⟩

end Hikari
